/-
Verification of the RainbowSTS browser client against its
natural-language specification.

Each section shallowly embeds one component of the JavaScript source:
pure functions become Lean functions, stateful methods become functions
from an explicit state record to a new state paired with a list of the
externally visible effects the method performs (DOM writes, network
requests, event notifications).  Machine integers are modelled as Nat/Int
with explicit wrap-around where the source can overflow; fallible source
code returns Option.
-/
import Mathlib

namespace RainbowSTS

/-! ## Transcript aggregator (static/js/transcribe.js, TranscribeView)

State: `fullSentences` (committed text) and `buildingSentence` (pending
partial).  `handleTranscription` is the subscriber for `realtime`
(partial) events, `finalizeSentence` for `fullSentence` (final) events;
both guard on `data && data.text`, i.e. they ignore events whose text is
empty (falsy).  `render` computes
`fullSentences.concat(' ', buildingSentence).concat('...')`. -/

structure TranscribeView where
  fullSentences : String
  buildingSentence : String
deriving DecidableEq, Repr

def TranscribeView.init : TranscribeView :=
  { fullSentences := "", buildingSentence := "" }

def handleTranscription (v : TranscribeView) (text : String) : TranscribeView :=
  if text ≠ "" then { v with buildingSentence := text } else v

def finalizeSentence (v : TranscribeView) (text : String) : TranscribeView :=
  if text ≠ "" then
    { fullSentences := v.fullSentences ++ text, buildingSentence := "" }
  else v

def render (v : TranscribeView) : String :=
  v.fullSentences ++ " " ++ v.buildingSentence ++ "..."

/-- A transcript event as it reaches the aggregator: a partial
(`realtime`) or final (`fullSentence`) text. -/
inductive TranscriptEvent where
  | partialEv (text : String)
  | finalEv (text : String)
deriving DecidableEq, Repr

def applyEvent (v : TranscribeView) : TranscriptEvent → TranscribeView
  | .partialEv t => handleTranscription v t
  | .finalEv t => finalizeSentence v t

def applyEvents (v : TranscribeView) (es : List TranscriptEvent) : TranscribeView :=
  es.foldl applyEvent v

/-! ## Device classification (templates/old.html, AudioDeviceManager.loadDevices)

The source lower-cases the device label and buckets it: any virtual
keyword as a substring → virtual; else "default"/"communications" as a
substring → the "other" (system) bucket; else physical. -/

inductive DeviceClass where
  | virtualDev
  | systemDev
  | physicalDev
deriving DecidableEq, Repr

/-- `startsWithSeq hay pin = true` iff `pin` is a prefix of `hay`. -/
def startsWithSeq : List Char → List Char → Bool
  | _, [] => true
  | [], _ :: _ => false
  | c :: cs, d :: ds => c = d && startsWithSeq cs ds

/-- `containsSeq hay pin = true` iff `pin` occurs as a contiguous
substring of `hay` (JavaScript `String.prototype.includes`). -/
def containsSeq : List Char → List Char → Bool
  | [], pin => pin.isEmpty
  | c :: cs, pin => startsWithSeq (c :: cs) pin || containsSeq cs pin

def lowerChars (s : String) : List Char :=
  s.data.map Char.toLower

/-- `label.toLowerCase().includes(keyword)` for lower-case `keyword`. -/
def labelContains (label : String) (keyword : String) : Bool :=
  containsSeq (lowerChars label) keyword.data

def virtualKeywords : List String :=
  ["vb-cable", "vb cable", "virtual", "cable output", "cable input",
   "voicemeeter", "vac"]

def classify (label : String) : DeviceClass :=
  if virtualKeywords.any (fun kw => labelContains label kw) then
    .virtualDev
  else if labelContains label "default" || labelContains label "communications" then
    .systemDev
  else
    .physicalDev

/-! ## Audio recorder stop (static/js/audio-recorder.js, AudioRecorder)

`stopRecording` is guarded by `if (this.mediaRecorder && this.isRecording)`;
inside the guard it stops the media recorder and its tracks, clears
`isRecording` and writes the status line.  The media recorder handle is
modelled as `Option Unit` (present/absent); the two platform calls are
recorded as effects. -/

inductive RecorderEffect where
  | stopMediaRecorder
  | stopTracks
deriving DecidableEq, Repr

structure AudioRecorder where
  mediaRecorder : Option Unit
  isRecording : Bool
  statusText : String
deriving DecidableEq, Repr

/-- Constructor state: `mediaRecorder = null`, `isRecording = false`;
the status element's initial text is whatever the page holds, so it is a
parameter. -/
def AudioRecorder.init (status0 : String) : AudioRecorder :=
  { mediaRecorder := none, isRecording := false, statusText := status0 }

def stopRecording (r : AudioRecorder) : AudioRecorder × List RecorderEffect :=
  if r.mediaRecorder.isSome && r.isRecording then
    ({ r with isRecording := false, statusText := "Status: Recording stopped" },
     [.stopMediaRecorder, .stopTracks])
  else
    (r, [])

/-! ## Listener dispatch (static/js/websocket-handler.js, _notifyListeners)

The dispatcher iterates over the subscriber list of one event kind and
runs each callback inside `try { callback(data) } catch { console.error }`.
A callback is modelled as a function from the shared mutable state to the
state it leaves behind together with a flag saying whether it threw; the
`catch` keeps the partial effects and moves on. -/

/-- One subscriber callback: given the shared state, returns the state it
leaves behind and `true` when it threw an exception. -/
def Callback (σ : Type) : Type := σ → σ × Bool

/-- `_notifyListeners` over one event kind's subscriber list: every
callback runs in order, each inside its own try/catch, so a thrown
exception is swallowed (logged) and iteration continues.  Returns the
final state and the per-callback throw flags in invocation order. -/
def notifyAll {σ : Type} : List (Callback σ) → σ → σ × List Bool
  | [], s => (s, [])
  | c :: cs, s =>
    let r := c s
    let rest := notifyAll cs r.1
    (rest.1, r.2 :: rest.2)

/-- The same iteration without the per-callback catch: the first throw
propagates (carrying the state at the moment of the throw) and the
remaining subscribers never run.  Used to state what the catch prevents. -/
def notifyNoCatch {σ : Type} : List (Callback σ) → σ → Except σ σ
  | [], s => .ok s
  | c :: cs, s =>
    let r := c s
    if r.2 then .error r.1 else notifyNoCatch cs r.1

/-! ## PCM conversion (unnamed AudioRecorder.processAudioChunk, newer revision)

`pcm16Data[i] = Math.max(-1, Math.min(1, float32Array[i])) * 0x7FFF`.
Input samples are finite floats, a subset of the rationals, so the
conversion is modelled over ℚ.  Assigning a double to an `Int16Array`
element truncates it toward zero and reduces modulo 2^16 into the signed
16-bit range. -/

/-- `Math.max(-1, Math.min(1, s))`. -/
def clampSample (s : ℚ) : ℚ := max (-1) (min 1 s)

/-- Truncation toward zero, as in the ToIntegerOrInfinity step of a typed
array element assignment. -/
def truncTowardZero (q : ℚ) : ℤ := if 0 ≤ q then ⌊q⌋ else ⌈q⌉

/-- Reduction of an integer into a signed 16-bit slot (two's complement). -/
def wrapInt16 (t : ℤ) : ℤ :=
  let n := t % 65536
  if n < 32768 then n else n - 65536

/-- The full per-sample conversion performed by `processAudioChunk`. -/
def pcm16 (s : ℚ) : ℤ := wrapInt16 (truncTowardZero (clampSample s * 32767))

/-- The conversion as the spec states it: `round(clamp(s,-1,1) * 32767)`
(rounding half away from zero upward, as JavaScript `Math.round`). -/
def pcm16Spec (s : ℚ) : ℤ := round (clampSample s * 32767)

/-! ## Wire frame (unnamed AudioRecorder.processAudioChunk, newer revision)

The outbound frame is `metadataLength (4 bytes) ++ metadata ++ pcm bytes`:
`metadata = JSON.stringify({ sampleRate: 16000 })`,
`metadataLength = new Uint32Array([metadata.length])` serialised
little-endian, and the PCM samples laid out as the bytes of an
`Int16Array` (little-endian two's complement).  Note the source prefixes
the *string length* of the metadata; the fixed metadata is ASCII so this
equals its UTF-8 byte length. -/

def metadataStr : String := "\x7b\"sampleRate\":16000\x7d"

/-- UTF-8 bytes of the metadata (all characters are ASCII). -/
def metadataBytes : List Nat := metadataStr.data.map Char.toNat

/-- The 4 little-endian bytes of a `Uint32Array` cell holding `n`. -/
def le32 (n : Nat) : List Nat :=
  [n % 256, n / 256 % 256, n / 65536 % 256, n / 16777216 % 256]

/-- The two little-endian bytes of an `Int16Array` cell holding `v`. -/
def int16Bytes (v : ℤ) : List Nat :=
  let n := (v % 65536).toNat
  [n % 256, n / 256]

/-- The binary frame `processAudioChunk` sends for a block of already
converted PCM16 samples. -/
def encodeFrame (samples : List ℤ) : List Nat :=
  le32 metadataStr.length ++ metadataBytes ++ (samples.map int16Bytes).flatten

/-- Modelled from the spec: decoder for the WireFrame layout
`[4-byte little-endian length N][N bytes of metadata][PCM16 LE bytes]`
(no decoder exists in the client source; the spec's layout says the
declared length must not exceed the remaining buffer and the samples are
16-bit little-endian signed). -/
def readLE32 : List Nat → Option (Nat × List Nat)
  | b0 :: b1 :: b2 :: b3 :: rest =>
    some (b0 + 256 * b1 + 65536 * b2 + 16777216 * b3, rest)
  | _ => none

/-- Modelled from the spec: parse little-endian two's-complement 16-bit
samples from a byte list; fails on a dangling odd byte. -/
def bytesToInt16s : List Nat → Option (List ℤ)
  | [] => some []
  | [_] => none
  | b0 :: b1 :: rest =>
    (bytesToInt16s rest).map (fun vs =>
      (let n := b0 + 256 * b1
       if n < 32768 then (n : ℤ) else (n : ℤ) - 65536) :: vs)

/-- Modelled from the spec: decode a WireFrame into its metadata bytes
and sample sequence, rejecting frames whose declared metadata length
exceeds the remaining buffer. -/
def decodeFrame (bs : List Nat) : Option (List Nat × List ℤ) :=
  match readLE32 bs with
  | none => none
  | some (n, rest) =>
    if n ≤ rest.length then
      (bytesToInt16s (rest.drop n)).map (fun vs => (rest.take n, vs))
    else
      none

/-! ## Transport channel reconnection (static/js/websocket-handler.js)

`connect(url)` installs `onopen`/`onclose` handlers.  `onopen` marks the
channel connected, zeroes `reconnectAttempts` and notifies the
`connection` listeners.  `onclose` marks it disconnected and, when the
close code differs from 1000 and fewer than `maxReconnectAttempts`
retries have been used, increments the counter and schedules
`connect(url)` again after 2000 ms; in every case it then notifies the
`connection` listeners of the disconnection.  `onerror` notifies the
`error` listeners.  `disconnect()` closes the socket with code 1000. -/

inductive WSAction where
  | scheduleReconnect (delayMs : Nat) (url : String)
  | notifyConnected
  | notifyDisconnected (code : Nat)
  | notifyError
deriving DecidableEq, Repr

structure WSHandler where
  reconnectAttempts : Nat
  maxReconnectAttempts : Nat
  isConnected : Bool
deriving DecidableEq, Repr

def WSHandler.init : WSHandler :=
  { reconnectAttempts := 0, maxReconnectAttempts := 5, isConnected := false }

def onOpen (h : WSHandler) : WSHandler × List WSAction :=
  ({ h with isConnected := true, reconnectAttempts := 0 }, [.notifyConnected])

def onClose (h : WSHandler) (url : String) (code : Nat) :
    WSHandler × List WSAction :=
  if code ≠ 1000 && h.reconnectAttempts < h.maxReconnectAttempts then
    ({ h with isConnected := false, reconnectAttempts := h.reconnectAttempts + 1 },
     [.scheduleReconnect 2000 url, .notifyDisconnected code])
  else
    ({ h with isConnected := false }, [.notifyDisconnected code])

def onError (h : WSHandler) : WSHandler × List WSAction :=
  (h, [.notifyError])

/-- A sequence of close events delivered to the same handler; returns the
final handler state and the action lists of each close in order. -/
def runCloses (h : WSHandler) (url : String) :
    List Nat → WSHandler × List (List WSAction)
  | [] => (h, [])
  | code :: codes =>
    let r := onClose h url code
    let rest := runCloses r.1 url codes
    (rest.1, r.2 :: rest.2)

/-! ## Session controller (unnamed State revision with STOPPING, and
unnamed SessionManager revision validating config)

`State.play()` returns unless the state is WAITING or PAUSED; otherwise
it calls `session.play()` when a session object is set, sets the state
to CONNECTING, awaits `sessionManager.startSession()` and sets the state
to PLAYING on success or back to WAITING on failure.  `State.stop()`
returns unless the state is PAUSED; otherwise it sets STOPPING, awaits
`sessionManager.stopSession()` and sets WAITING only on success.

`SessionManager.startSession()` validates the selected capture device,
the language pair, and the speech-to-text model, emitting one
notification and returning false at the first missing item; with a valid
config it POSTs `/start_session`, and on a success response stores the
session id, connects the websocket, registers three listeners and
returns true.  `stopSession()` returns false when no session id is
stored; otherwise it POSTs `/stop_session/<id>`, disconnects the
websocket, stops the recorder and clears the id, returning true (on a
thrown fetch it only notifies an error and returns false). -/

inductive SessState where
  | waiting
  | connecting
  | playing
  | paused
  | stopping
deriving DecidableEq, Repr

/-- The configuration fields `startSession` reads off the global state;
an unselected field is the empty string. -/
structure Config where
  inputDevice : String
  srcLanguage : String
  dstLanguage : String
  s2tModel : String
deriving DecidableEq, Repr

/-- Outcome of the `/start_session` request (the backend is external). -/
inductive BackendResp where
  | success (sessionId : String) (wsUrl : String)
  | backendError (msg : String)
  | networkError
deriving DecidableEq, Repr

inductive Effect where
  | setState (s : SessState)
  | notifyError (scope msg : String)
  | notifySuccess (scope msg : String)
  | openRequest (cfg : Config)
  | closeRequest (sessionId : String)
  | wsConnect (url : String)
  | wsDisconnect
  | stopRecording
  | addListener (kind : String)
  | sessionPlay
deriving DecidableEq, Repr

def startSession (cfg : Config) (sid : Option String) (resp : BackendResp) :
    Bool × Option String × List Effect :=
  if cfg.inputDevice = "" then
    (false, sid, [.notifyError "Session" "No audio capture device selected."])
  else if cfg.srcLanguage = "" || cfg.dstLanguage = "" then
    (false, sid,
     [.notifyError "Session" "Source and destination languages must be selected."])
  else if cfg.s2tModel = "" then
    (false, sid, [.notifyError "Session" "No Speech-to-text model selected."])
  else
    match resp with
    | .success sessionId wsUrl =>
      (true, some sessionId,
       [.openRequest cfg, .wsConnect wsUrl, .addListener "connection",
        .addListener "error", .addListener "translation",
        .notifySuccess "Session" "Session started successfully."])
    | .backendError msg =>
      (false, sid,
       [.openRequest cfg,
        .notifyError "Session" ("Error starting session: " ++ msg)])
    | .networkError =>
      (false, sid, [.openRequest cfg, .notifyError "Session" "Error starting session"])

/-- `stopOk` is whether the `/stop_session` round trip completed without
throwing. -/
def stopSession (sid : Option String) (stopOk : Bool) :
    Bool × Option String × List Effect :=
  match sid with
  | none => (false, none, [])
  | some s =>
    if stopOk then
      (true, none,
       [.closeRequest s, .wsDisconnect, .stopRecording,
        .notifySuccess "Session" "Session stopped successfully."])
    else
      (false, some s, [.closeRequest s, .notifyError "Session" "Error stopping session"])

/-- The mutable fields of the global `State` object (and the session id
the `SessionManager` keeps) that the lifecycle methods touch. -/
structure StObj where
  state : SessState
  session : Option Unit
  sessionId : Option String
deriving DecidableEq, Repr

def play (st : StObj) (cfg : Config) (resp : BackendResp) :
    StObj × List Effect :=
  if st.state ≠ .waiting && st.state ≠ .paused then (st, [])
  else
    let sessEffs : List Effect :=
      if st.session.isSome then [.sessionPlay] else []
    let r := startSession cfg st.sessionId resp
    if r.1 then
      ({ st with state := .playing, sessionId := r.2.1 },
       sessEffs ++ [.setState .connecting] ++ r.2.2 ++ [.setState .playing])
    else
      ({ st with state := .waiting, sessionId := r.2.1 },
       sessEffs ++ [.setState .connecting] ++ r.2.2 ++ [.setState .waiting])

def stop (st : StObj) (stopOk : Bool) : StObj × List Effect :=
  if st.state ≠ .paused then (st, [])
  else
    let r := stopSession st.sessionId stopOk
    if r.1 then
      ({ st with state := .waiting, sessionId := r.2.1 },
       [.setState .stopping] ++ r.2.2 ++ [.setState .waiting])
    else
      ({ st with state := .stopping, sessionId := r.2.1 },
       [.setState .stopping] ++ r.2.2)

/-- A config is valid when every required field is selected. -/
def validConfig (cfg : Config) : Bool :=
  cfg.inputDevice ≠ "" && cfg.srcLanguage ≠ "" && cfg.dstLanguage ≠ "" &&
    cfg.s2tModel ≠ ""

/-- The validation notification the source emits for the first missing
field, in its checking order: device, language pair, model. -/
def firstMissingMsg (cfg : Config) : String :=
  if cfg.inputDevice = "" then "No audio capture device selected."
  else if cfg.srcLanguage = "" || cfg.dstLanguage = "" then
    "Source and destination languages must be selected."
  else "No Speech-to-text model selected."

def isValidationError : Effect → Bool
  | .notifyError "Session" "No audio capture device selected." => true
  | .notifyError "Session" "Source and destination languages must be selected." => true
  | .notifyError "Session" "No Speech-to-text model selected." => true
  | _ => false

def isOpenRequest : Effect → Bool
  | .openRequest _ => true
  | _ => false

def isCloseRequest : Effect → Bool
  | .closeRequest _ => true
  | _ => false

/-! ## Theorems -/

/-- C2, counterexample.  The claimed event sequence
`partial("he"), partial("hello"), final("hello world"), partial("bye")`
renders as `"hello world bye..."` — the aggregator inserts a space
between committed and pending text and appends an ellipsis — not as the
claimed `"hello world bye"`. -/
theorem render_example_counterexample :
    render (applyEvents TranscribeView.init
      [.partialEv "he", .partialEv "hello", .finalEv "hello world",
       .partialEv "bye"]) = "hello world bye..." ∧
    render (applyEvents TranscribeView.init
      [.partialEv "he", .partialEv "hello", .finalEv "hello world",
       .partialEv "bye"]) ≠ "hello world bye" := by
  constructor
  · rfl
  · decide

/-- C2, amended.  For events carrying nonempty text (empty ones are
ignored by the `data && data.text` guard): a partial event replaces the
pending text, a final event appends its text to the committed text and
clears pending, and the rendered string is the committed text, a single
space, the pending text, then `"..."`; the claimed sequence therefore
renders as `"hello world bye..."`. -/
theorem transcript_aggregator_amended :
    (∀ v t, t ≠ "" → handleTranscription v t = { v with buildingSentence := t }) ∧
    (∀ v t, t ≠ "" → finalizeSentence v t =
      { fullSentences := v.fullSentences ++ t, buildingSentence := "" }) ∧
    (∀ v, render v = v.fullSentences ++ " " ++ v.buildingSentence ++ "...") ∧
    render (applyEvents TranscribeView.init
      [.partialEv "he", .partialEv "hello", .finalEv "hello world",
       .partialEv "bye"]) = "hello world bye..." := by
  refine ⟨?_, ?_, ?_, rfl⟩
  · intro v t ht
    simp [handleTranscription, ht]
  · intro v t ht
    simp [finalizeSentence, ht]
  · intro v
    rfl

/-- C2, witness for the amended theorem at concrete inputs. -/
theorem transcript_aggregator_amended_witness :
    handleTranscription ⟨"done ", "hel"⟩ "hello" = ⟨"done ", "hello"⟩ ∧
    finalizeSentence ⟨"done ", "hello"⟩ "hello!" = ⟨"done hello!", ""⟩ := by
  refine ⟨transcript_aggregator_amended.1 _ "hello" ?_,
          transcript_aggregator_amended.2.1 _ "hello!" ?_⟩ <;> decide

/-- C5.  `stop()` in any state other than PAUSED returns immediately:
the state object is unchanged and no effects — in particular no
session-close request — are emitted. -/
theorem stop_nonpaused_noop :
    ∀ (st : StObj) (stopOk : Bool), st.state ≠ .paused →
      stop st stopOk = (st, []) := by
  intro st stopOk h
  simp [stop, h]

/-- C5, witness: `stop()` while Streaming (PLAYING) with a stored
session id is a no-op. -/
theorem stop_nonpaused_noop_witness :
    stop ⟨.playing, none, some "sess-1"⟩ true = (⟨.playing, none, some "sess-1"⟩, []) :=
  stop_nonpaused_noop ⟨.playing, none, some "sess-1"⟩ true (by decide)

/-- C8.  `classify` is total and deterministic (it is a function); a
label containing any virtual keyword (case-insensitively) is classified
virtual, a label containing "default" or "communications" but no virtual
keyword is classified system, and every other label is classified
physical. -/
theorem classify_cases :
    (∀ label, (∃ kw ∈ virtualKeywords, labelContains label kw = true) →
      classify label = .virtualDev) ∧
    (∀ label, (∀ kw ∈ virtualKeywords, labelContains label kw = false) →
      (labelContains label "default" || labelContains label "communications") = true →
      classify label = .systemDev) ∧
    (∀ label, (∀ kw ∈ virtualKeywords, labelContains label kw = false) →
      (labelContains label "default" || labelContains label "communications") = false →
      classify label = .physicalDev) := by
  refine ⟨?_, ?_, ?_⟩
  · intro label h
    have : virtualKeywords.any (fun kw => labelContains label kw) = true := by
      rw [List.any_eq_true]
      obtain ⟨kw, hmem, hc⟩ := h
      exact ⟨kw, hmem, hc⟩
    simp [classify, this]
  · intro label h hdc
    have : virtualKeywords.any (fun kw => labelContains label kw) = false := by
      rw [List.any_eq_false]
      intro kw hmem
      simp [h kw hmem]
    simp [classify, this, hdc]
  · intro label h hdc
    have hany : virtualKeywords.any (fun kw => labelContains label kw) = false := by
      rw [List.any_eq_false]
      intro kw hmem
      simp [h kw hmem]
    simp only [Bool.or_eq_false_iff] at hdc
    simp [classify, hany, hdc.1, hdc.2]

/-- C8, witness at three concrete labels, one per class. -/
theorem classify_cases_witness :
    classify "CABLE Output (VB-Audio Virtual Cable)" = .virtualDev ∧
    classify "Default - Speakers (Realtek)" = .systemDev ∧
    classify "USB Microphone (C920)" = .physicalDev := by
  refine ⟨classify_cases.1 _ ?_, classify_cases.2.1 _ ?_ ?_,
          classify_cases.2.2 _ ?_ ?_⟩ <;> decide

/-- C9.  Capture `stop()` is idempotent and safe before any `start()`:
a second consecutive `stopRecording` leaves the recorder state unchanged
and performs no platform calls, and `stopRecording` on the
freshly-constructed recorder (no recorder handle, not recording) does
the same.  Both facts are stated over the total Lean embedding, so no
exception path exists. -/
theorem stopRecording_idempotent :
    (∀ r, stopRecording (stopRecording r).1 = ((stopRecording r).1, [])) ∧
    (∀ s0, stopRecording (AudioRecorder.init s0) = (AudioRecorder.init s0, [])) := by
  constructor
  · intro r
    by_cases h : r.mediaRecorder.isSome && r.isRecording
    · simp [stopRecording, h]
    · simp only [stopRecording, h]
      simp [stopRecording, h]
  · intro s0
    simp [stopRecording, AudioRecorder.init]

/-- C10.  The per-callback try/catch in `_notifyListeners` isolates
subscribers: (1) every dispatch invokes exactly one callback per
subscriber, in subscription order; (2) dispatch over a concatenation of
subscriber lists runs the second list after the first, from the state
the first produced, whatever each callback threw; (3) when the first
callback throws, the catching dispatcher still runs all the remaining
callbacks and returns normally, while the same list without the catch
would propagate the exception at once. -/
theorem notify_dispatch_isolated :
    (∀ (σ : Type) (cbs : List (Callback σ)) (s : σ),
      (notifyAll cbs s).2.length = cbs.length) ∧
    (∀ (σ : Type) (l₁ l₂ : List (Callback σ)) (s : σ),
      notifyAll (l₁ ++ l₂) s =
        ((notifyAll l₂ (notifyAll l₁ s).1).1,
         (notifyAll l₁ s).2 ++ (notifyAll l₂ (notifyAll l₁ s).1).2)) ∧
    (∀ (σ : Type) (cbs : List (Callback σ)) (s : σ) (c : Callback σ),
      (c s).2 = true →
      notifyAll (c :: cbs) s =
        ((notifyAll cbs (c s).1).1, true :: (notifyAll cbs (c s).1).2) ∧
      notifyNoCatch (c :: cbs) s = .error (c s).1) := by
  refine ⟨?_, ?_, ?_⟩
  · intro σ cbs
    induction cbs with
    | nil => intro s; rfl
    | cons c cs ih =>
      intro s
      simp [notifyAll, ih]
  · intro σ l₁
    induction l₁ with
    | nil => intro l₂ s; rfl
    | cons c cs ih =>
      intro l₂ s
      simp [notifyAll, ih]
  · intro σ cbs s c hc
    constructor
    · simp [notifyAll, hc]
    · simp [notifyNoCatch, hc]

/-- C10, witness: a throwing first callback does not stop dispatch — the
second subscriber still runs (two invocation records), while the
uncaught semantics would propagate after the first. -/
theorem notify_dispatch_isolated_witness :
    notifyAll [(fun n => (n + 1, true) : Callback Nat), fun n => (n * 2, false)] 0 =
      ((notifyAll [(fun n => (n * 2, false) : Callback Nat)] 1).1,
       true :: (notifyAll [(fun n => (n * 2, false) : Callback Nat)] 1).2) ∧
    notifyNoCatch [(fun n => (n + 1, true) : Callback Nat), fun n => (n * 2, false)] 0 =
      .error 1 :=
  notify_dispatch_isolated.2.2 Nat [fun n => (n * 2, false)] 0
    (fun n => (n + 1, true)) rfl

/-- C3, counterexample.  Six consecutive abnormal closes (code 1006)
from a fresh handler: the first five schedule a reconnect, but the sixth
emits only the generic disconnection notification — no reconnect and no
ConnectionError (`error`) event is surfaced, contradicting "surfaces a
fatal ConnectionError on the 6th failure". -/
theorem ws_sixth_failure_counterexample :
    (runCloses WSHandler.init "ws://localhost:8765"
      [1006, 1006, 1006, 1006, 1006, 1006]).2 =
      [[.scheduleReconnect 2000 "ws://localhost:8765", .notifyDisconnected 1006],
       [.scheduleReconnect 2000 "ws://localhost:8765", .notifyDisconnected 1006],
       [.scheduleReconnect 2000 "ws://localhost:8765", .notifyDisconnected 1006],
       [.scheduleReconnect 2000 "ws://localhost:8765", .notifyDisconnected 1006],
       [.scheduleReconnect 2000 "ws://localhost:8765", .notifyDisconnected 1006],
       [.notifyDisconnected 1006]] ∧
    WSAction.notifyError ∉
      ((runCloses WSHandler.init "ws://localhost:8765"
        [1006, 1006, 1006, 1006, 1006, 1006]).2.flatten) := by
  constructor
  · rfl
  · decide

/-- C3, amended.  An abnormal close (code ≠ 1000) with retries remaining
schedules a reconnect to the same address after a fixed 2000 ms delay and
increments the attempt counter; once the 5-attempt budget is exhausted a
further abnormal close emits only the disconnection notification (no
fatal ConnectionError is surfaced); a normal close (code 1000, as sent by
`disconnect()`) never schedules a reconnect; a successful open resets the
attempt counter to zero; and the counter never exceeds the budget. -/
theorem ws_reconnect_amended :
    (∀ (h : WSHandler) url code, code ≠ 1000 →
      h.reconnectAttempts < h.maxReconnectAttempts →
      onClose h url code =
        ({ h with isConnected := false,
                  reconnectAttempts := h.reconnectAttempts + 1 },
         [.scheduleReconnect 2000 url, .notifyDisconnected code])) ∧
    (∀ (h : WSHandler) url code, h.maxReconnectAttempts ≤ h.reconnectAttempts →
      onClose h url code =
        ({ h with isConnected := false }, [.notifyDisconnected code])) ∧
    (∀ (h : WSHandler) url,
      onClose h url 1000 =
        ({ h with isConnected := false }, [.notifyDisconnected 1000])) ∧
    (∀ h : WSHandler, onOpen h =
      ({ h with isConnected := true, reconnectAttempts := 0 },
       [.notifyConnected])) ∧
    (∀ (h : WSHandler) url code,
      h.reconnectAttempts ≤ h.maxReconnectAttempts →
      (onClose h url code).1.reconnectAttempts ≤ h.maxReconnectAttempts) := by
  refine ⟨?_, ?_, ?_, fun h => rfl, ?_⟩
  · intro h url code hcode hlt
    simp [onClose, hcode, hlt]
  · intro h url code hle
    have : ¬ h.reconnectAttempts < h.maxReconnectAttempts := by omega
    simp [onClose, this]
  · intro h url
    simp [onClose]
  · intro h url code hle
    simp only [onClose]
    split
    next hcond =>
      simp only [Bool.and_eq_true, decide_eq_true_eq] at hcond
      simp
      omega
    next => simpa using hle

/-- C3, witness for the amended theorem: a fresh handler on an abnormal
close schedules one 2-second reconnect to the same address, and after
five used attempts another abnormal close emits only the disconnection
notification. -/
theorem ws_reconnect_amended_witness :
    onClose WSHandler.init "ws://h" 1006 =
      (⟨1, 5, false⟩,
       [.scheduleReconnect 2000 "ws://h", .notifyDisconnected 1006]) ∧
    onClose ⟨5, 5, false⟩ "ws://h" 1006 =
      (⟨5, 5, false⟩, [.notifyDisconnected 1006]) :=
  ⟨ws_reconnect_amended.1 WSHandler.init "ws://h" 1006 (by decide) (by decide),
   ws_reconnect_amended.2.1 ⟨5, 5, false⟩ "ws://h" 1006 (by decide)⟩

/-- C1, counterexample.  `play()` from WAITING with every config field
missing (three missing categories) is not a no-op: it emits a transition
to CONNECTING and back to WAITING, and exactly one validation error —
for the first missing category only — instead of one per missing
category. -/
theorem play_validation_counterexample :
    play ⟨.waiting, none, none⟩ ⟨"", "", "", ""⟩ .networkError =
      (⟨.waiting, none, none⟩,
       [.setState .connecting,
        .notifyError "Session" "No audio capture device selected.",
        .setState .waiting]) ∧
    ((play ⟨.waiting, none, none⟩ ⟨"", "", "", ""⟩ .networkError).2.filter
      isValidationError).length = 1 := by
  constructor
  · rfl
  · rfl

/-- C1, amended.  `play()` from WAITING (Idle) with a fully valid config
first transitions the state to CONNECTING (the head of the emitted
effect trace); with any required field missing, `play()` transiently
enters CONNECTING, returns to WAITING (so the final state is unchanged),
and emits exactly one validation error — the one for the first missing
field category in the checking order device, language pair,
speech-to-text model. -/
theorem play_from_idle_amended :
    (∀ cfg resp sid, validConfig cfg = true →
      (play ⟨.waiting, none, sid⟩ cfg resp).2.head? =
        some (.setState .connecting)) ∧
    (∀ cfg resp sid, validConfig cfg = false →
      play ⟨.waiting, none, sid⟩ cfg resp =
        (⟨.waiting, none, sid⟩,
         [.setState .connecting,
          .notifyError "Session" (firstMissingMsg cfg),
          .setState .waiting])) := by
  constructor
  · intro cfg resp sid hv
    simp only [validConfig, Bool.and_eq_true, decide_eq_true_eq] at hv
    obtain ⟨⟨⟨h1, h2⟩, h3⟩, h4⟩ := hv
    cases resp <;>
      simp [play, startSession, h1, h2, h3, h4]
  · intro cfg resp sid hv
    by_cases h1 : cfg.inputDevice = ""
    · simp [play, startSession, firstMissingMsg, h1]
    · by_cases h2 : cfg.srcLanguage = ""
      · simp [play, startSession, firstMissingMsg, h1, h2]
      · by_cases h3 : cfg.dstLanguage = ""
        · simp [play, startSession, firstMissingMsg, h1, h2, h3]
        · by_cases h4 : cfg.s2tModel = ""
          · simp [play, startSession, firstMissingMsg, h1, h2, h3, h4]
          · simp [validConfig, h1, h2, h3, h4] at hv

/-- C1, witness for the amended theorem: a valid config's first emitted
effect from WAITING is the CONNECTING transition; a config missing only
the speech-to-text model returns to WAITING with exactly the model
validation error. -/
theorem play_from_idle_amended_witness :
    (play ⟨.waiting, none, none⟩ ⟨"dev-7", "en", "vi", "whisper"⟩
      (.success "s1" "ws://u")).2.head? = some (.setState .connecting) ∧
    play ⟨.waiting, none, none⟩ ⟨"dev-7", "en", "vi", ""⟩ .networkError =
      (⟨.waiting, none, none⟩,
       [.setState .connecting,
        .notifyError "Session" (firstMissingMsg ⟨"dev-7", "en", "vi", ""⟩),
        .setState .waiting]) :=
  ⟨play_from_idle_amended.1 ⟨"dev-7", "en", "vi", "whisper"⟩
    (.success "s1" "ws://u") none (by decide),
   play_from_idle_amended.2 ⟨"dev-7", "en", "vi", ""⟩ .networkError none
    (by decide)⟩

/-- C4, counterexample.  `play()` from PAUSED with a valid config and a
successful backend response issues exactly one new session-open request
(the claim says none is issued) on its way to PLAYING. -/
theorem play_from_paused_counterexample :
    ((play ⟨.paused, none, none⟩ ⟨"dev-7", "en", "vi", "whisper"⟩
      (.success "s2" "ws://u2")).2.filter isOpenRequest).length = 1 ∧
    (play ⟨.paused, none, none⟩ ⟨"dev-7", "en", "vi", "whisper"⟩
      (.success "s2" "ws://u2")).1.state = .playing := by
  constructor
  · rfl
  · rfl

/-- C4, amended.  `play()` from PAUSED re-runs the full start path, just
as from Idle: it transitions to CONNECTING, issues a new session-open
request, and on a successful response stores the new session id,
connects the channel, and transitions to PLAYING (Streaming).  Capture
is not separately resumed by this call. -/
theorem play_from_paused_amended :
    ∀ cfg sid sessId url, validConfig cfg = true →
      play ⟨.paused, none, sid⟩ cfg (.success sessId url) =
        (⟨.playing, none, some sessId⟩,
         [.setState .connecting, .openRequest cfg, .wsConnect url,
          .addListener "connection", .addListener "error",
          .addListener "translation",
          .notifySuccess "Session" "Session started successfully.",
          .setState .playing]) := by
  intro cfg sid sessId url hv
  simp only [validConfig, Bool.and_eq_true, decide_eq_true_eq] at hv
  obtain ⟨⟨⟨h1, h2⟩, h3⟩, h4⟩ := hv
  simp [play, startSession, h1, h2, h3, h4]

/-- C4, witness for the amended theorem at a concrete paused state. -/
theorem play_from_paused_amended_witness :
    play ⟨.paused, none, some "old"⟩ ⟨"dev-7", "en", "vi", "whisper"⟩
      (.success "s2" "ws://u2") =
      (⟨.playing, none, some "s2"⟩,
       [.setState .connecting, .openRequest ⟨"dev-7", "en", "vi", "whisper"⟩,
        .wsConnect "ws://u2", .addListener "connection", .addListener "error",
        .addListener "translation",
        .notifySuccess "Session" "Session started successfully.",
        .setState .playing]) :=
  play_from_paused_amended ⟨"dev-7", "en", "vi", "whisper"⟩ (some "old")
    "s2" "ws://u2" (by decide)

lemma clampSample_bounds (s : ℚ) : -1 ≤ clampSample s ∧ clampSample s ≤ 1 :=
  ⟨le_max_left _ _, max_le (by norm_num) (min_le_left _ _)⟩

lemma truncTowardZero_bounds {q : ℚ} (h1 : -(32767:ℚ) ≤ q) (h2 : q ≤ (32767:ℚ)) :
    -32767 ≤ truncTowardZero q ∧ truncTowardZero q ≤ 32767 := by
  unfold truncTowardZero
  split
  next hq =>
    refine ⟨le_trans (by norm_num) (Int.floor_nonneg.mpr hq), ?_⟩
    have := Int.floor_mono h2
    simpa using this
  next hq =>
    push_neg at hq
    constructor
    · have := Int.ceil_mono h1
      simpa using this
    · have := Int.ceil_mono hq.le
      simp at this
      omega

lemma wrapInt16_id {t : ℤ} (h1 : -32768 ≤ t) (h2 : t ≤ 32767) : wrapInt16 t = t := by
  simp only [wrapInt16]
  omega

/-- C6, counterexample.  At the float sample `s = 1/2` (exactly
representable, and `0.5 * 32767 = 16383.5` is exact in double
precision) the conversion stores `16383`: the `Int16Array` element
assignment truncates toward zero, whereas the claimed
`round(clamp(s,-1,1) * 32767)` is `16384`. -/
theorem pcm16_half_counterexample :
    pcm16 (1/2) = 16383 ∧ pcm16Spec (1/2) = 16384 := by
  have hc : clampSample (1/2) * 32767 = 32767/2 := by
    unfold clampSample
    rw [min_eq_right (by norm_num), max_eq_right (by norm_num)]
    norm_num
  constructor
  · have ht : truncTowardZero (32767/2 : ℚ) = 16383 := by
      unfold truncTowardZero
      rw [if_pos (show (0:ℚ) ≤ 32767/2 by norm_num), Int.floor_eq_iff]
      norm_num
    unfold pcm16
    rw [hc, ht]
    decide
  · unfold pcm16Spec
    rw [hc, round_eq, Int.floor_eq_iff]
    norm_num

/-- C6, amended.  For every sample `s` the conversion outputs the
truncation toward zero (not the rounding) of `clamp(s,-1,1) * 32767`,
with no 16-bit wrap-around ever occurring; in particular the output
always lies in `[-32767, 32767]`, and `0 ↦ 0`, `1 ↦ 32767`,
`-1 ↦ -32767`. -/
theorem pcm16_amended :
    (∀ s : ℚ, pcm16 s = truncTowardZero (clampSample s * 32767)) ∧
    (∀ s : ℚ, -32767 ≤ pcm16 s ∧ pcm16 s ≤ 32767) ∧
    pcm16 0 = 0 ∧ pcm16 1 = 32767 ∧ pcm16 (-1) = -32767 := by
  have key : ∀ s : ℚ, -32767 ≤ truncTowardZero (clampSample s * 32767) ∧
      truncTowardZero (clampSample s * 32767) ≤ 32767 := by
    intro s
    have hc := clampSample_bounds s
    exact truncTowardZero_bounds (by nlinarith [hc.1, hc.2]) (by nlinarith [hc.1, hc.2])
  have heq : ∀ s : ℚ, pcm16 s = truncTowardZero (clampSample s * 32767) := by
    intro s
    exact wrapInt16_id (by have := (key s).1; omega) (key s).2
  refine ⟨heq, fun s => by rw [heq s]; exact key s, ?_, ?_, ?_⟩
  · have hc : clampSample 0 * 32767 = 0 := by
      unfold clampSample
      rw [min_eq_right (by norm_num), max_eq_right (by norm_num)]
      norm_num
    have ht : truncTowardZero (0 : ℚ) = 0 := by
      unfold truncTowardZero
      rw [if_pos (le_refl (0:ℚ))]
      simp
    unfold pcm16
    rw [hc, ht]
    decide
  · have hc : clampSample 1 * 32767 = 32767 := by
      unfold clampSample
      rw [min_eq_right (by norm_num), max_eq_right (by norm_num)]
      norm_num
    have ht : truncTowardZero (32767 : ℚ) = 32767 := by
      unfold truncTowardZero
      rw [if_pos (show (0:ℚ) ≤ 32767 by norm_num), Int.floor_eq_iff]
      norm_num
    unfold pcm16
    rw [hc, ht]
    decide
  · have hc : clampSample (-1) * 32767 = -32767 := by
      unfold clampSample
      rw [min_eq_right (by norm_num), max_eq_right (by norm_num)]
      norm_num
    have ht : truncTowardZero (-32767 : ℚ) = -32767 := by
      unfold truncTowardZero
      rw [if_neg (show ¬ (0:ℚ) ≤ -32767 by norm_num), Int.ceil_eq_iff]
      norm_num
    unfold pcm16
    rw [hc, ht]
    decide

lemma readLE32_le32 (n : Nat) (rest : List Nat) (h : n < 4294967296) :
    readLE32 (le32 n ++ rest) = some (n, rest) := by
  simp only [le32, List.cons_append, List.nil_append, readLE32,
    Option.some.injEq, Prod.mk.injEq]
  exact ⟨by omega, trivial⟩

lemma bytesToInt16s_cons (v : ℤ) (h1 : -32768 ≤ v) (h2 : v ≤ 32767)
    (rest : List Nat) (vs : List ℤ) (hrest : bytesToInt16s rest = some vs) :
    bytesToInt16s (int16Bytes v ++ rest) = some (v :: vs) := by
  have hval : (if ((v % 65536).toNat % 256 + 256 * ((v % 65536).toNat / 256)) < 32768
      then (((v % 65536).toNat % 256 + 256 * ((v % 65536).toNat / 256) : ℕ) : ℤ)
      else (((v % 65536).toNat % 256 + 256 * ((v % 65536).toNat / 256) : ℕ) : ℤ) - 65536)
      = v := by
    split <;> omega
  show bytesToInt16s ((v % 65536).toNat % 256 :: (v % 65536).toNat / 256 :: rest)
      = some (v :: vs)
  rw [bytesToInt16s, hrest]
  simp only [Option.map_some, Option.some.injEq]
  rw [hval]
  rfl

lemma bytesToInt16s_flatten (samples : List ℤ)
    (h : ∀ v ∈ samples, -32768 ≤ v ∧ v ≤ 32767) :
    bytesToInt16s ((samples.map int16Bytes).flatten) = some samples := by
  induction samples with
  | nil => rfl
  | cons v vs ih =>
    have hv := h v (List.mem_cons_self v vs)
    simp only [List.map_cons, List.flatten_cons]
    exact bytesToInt16s_cons v hv.1 hv.2 _ vs
      (ih (fun w hw => h w (List.mem_cons_of_mem v hw)))

/-- C7.  Round trip of the outbound WireFrame: for every block of
in-range PCM16 samples, the encoded frame — 4-byte little-endian length
prefix, metadata bytes, then little-endian sample bytes — decodes (per
the spec's layout, with the declared-length bound check) back to exactly
the frame's metadata bytes and the original sample sequence.  The length
prefix the source writes is the metadata's JavaScript string length,
which for this all-ASCII metadata equals its exact UTF-8 byte length. -/
theorem wireframe_roundtrip (samples : List ℤ)
    (h : ∀ v ∈ samples, -32768 ≤ v ∧ v ≤ 32767) :
    decodeFrame (encodeFrame samples) = some (metadataBytes, samples) := by
  have hlen : metadataStr.length = metadataBytes.length := rfl
  have h20 : metadataBytes.length = 20 := rfl
  have hr := readLE32_le32 metadataBytes.length
    (metadataBytes ++ (samples.map int16Bytes).flatten) (by rw [h20]; norm_num)
  rw [encodeFrame, List.append_assoc, hlen]
  simp only [decodeFrame, hr]
  rw [if_pos (by simp)]
  rw [List.take_left, List.drop_left, bytesToInt16s_flatten samples h]
  rfl

/-- C7, witness: a concrete four-sample frame round-trips. -/
theorem wireframe_roundtrip_witness :
    decodeFrame (encodeFrame [0, 32767, -32768, -1]) =
      some (metadataBytes, [0, 32767, -32768, -1]) :=
  wireframe_roundtrip [0, 32767, -32768, -1] (by decide)

end RainbowSTS
